import Mathlib

/-!
Verification of the wire-cell-python core: typed graph traversal
(`wirecell/util/wires/graph.py`), the drift transform and blob sampling
(spec section 4.2/4.3; the converter module is not among the provided
sources, so those two are modelled from the spec), the bee-blobs JSON
packaging (`wirecell/img/__main__.py`), and the impact-bin index lookup
(`wirecell/sigproc/response/plots.py`).

Python real arithmetic is embedded as exact rational arithmetic over `ℚ`.
Python exceptions are embedded as an explicit error type carried by
`Except`; the predicate `isLookupError` records which of those exception
classes derive from Python's built-in `LookupError` (`KeyError` and
`IndexError` do; `networkx`'s `NetworkXError`/`NodeNotFound` and
`AssertionError` do not).
-/

/-- Exception classes that the embedded code can raise.  `keyError` and
`indexError` are Python built-ins; `networkXError` is raised by
`networkx.neighbors` on a node that is not in the graph; `nodeNotFound` is
raised by `networkx.ego_graph` (via `single_source_shortest_path_length`)
on a missing source node; `assertionError` models a failed `assert`. -/
inductive PyErr where
  | keyError
  | indexError
  | networkXError
  | nodeNotFound
  | assertionError
deriving DecidableEq, Repr

/-- Whether the exception class derives from Python's `LookupError`.
In CPython, `KeyError` and `IndexError` are the subclasses of
`LookupError`; `networkx` exceptions derive from `Exception` directly and
`AssertionError` is its own branch. -/
def PyErr.isLookupError : PyErr → Bool
  | .keyError => true
  | .indexError => true
  | _ => false

/-- Python 3 `round` to an integer: round half to even (banker's
rounding), embedded on `ℚ`. -/
def pyRound (q : ℚ) : ℤ :=
  let f := ⌊q⌋
  let r := q - (f : ℚ)
  if r < 1/2 then f
  else if 1/2 < r then f + 1
  else if f % 2 = 0 then f else f + 1

/-- Python `round(a, 3)`: round to 3 decimal places, half to even. -/
def round3 (a : ℚ) : ℚ := (pyRound (a * 1000) : ℚ) / 1000

/-! ## The networkx graph model used by `wirecell/util/wires/graph.py`

Nodes are identified by natural numbers.  The only node attribute the
traversal code reads is `'type'`; `ty = none` models a node whose
attribute dictionary lacks that key (so that reading it raises
`KeyError`).  Edges are undirected and carry an attribute dictionary of
integer values (`slot`, `connector`, `spot`, `address`, ...). -/

/-- A node of the connectivity graph: its identifier and its `'type'`
attribute (if present). -/
structure NXNode where
  id : Nat
  ty : Option String
deriving DecidableEq, Repr

/-- An undirected edge with its attribute dictionary. -/
structure NXEdge where
  a : Nat
  b : Nat
  attrs : List (String × Int)
deriving DecidableEq, Repr

/-- An attributed undirected graph, as `networkx.Graph` is used by
`wirecell/util/wires/graph.py`.  Lists keep insertion order, which fixes
the (otherwise unspecified) traversal order of neighbor iteration. -/
structure NXGraph where
  nodes : List NXNode
  edges : List NXEdge
deriving DecidableEq, Repr

/-- `n in G`. -/
def hasNodeB (G : NXGraph) (n : Nat) : Bool :=
  G.nodes.any (fun nd => nd.id == n)

/-- `G[a][b]` adjacency test. -/
def adjB (G : NXGraph) (x y : Nat) : Bool :=
  G.edges.any (fun e => (e.a == x && e.b == y) || (e.a == y && e.b == x))

/-- The neighbor list of `n`, in edge-insertion order (a self-loop
contributes `n` itself once, as in networkx). -/
def neighborIds (G : NXGraph) (n : Nat) : List Nat :=
  G.edges.filterMap (fun e =>
    if e.a = n then some e.b else if e.b = n then some e.a else none)

/-- `networkx.neighbors(G, n)`: raises `NetworkXError` when `n` is not a
node of `G`. -/
def nxNeighborsE (G : NXGraph) (n : Nat) : Except PyErr (List Nat) :=
  if hasNodeB G n then .ok (neighborIds G n) else .error .networkXError

/-- `G.node[n]['type']`: `KeyError` when `n` is not a node or when the
node has no `'type'` attribute. -/
def nodeTypeE (G : NXGraph) (n : Nat) : Except PyErr String :=
  match G.nodes.find? (fun nd => nd.id == n) with
  | none => .error .keyError
  | some nd =>
    match nd.ty with
    | none => .error .keyError
    | some s => .ok s

/-- Boolean form of "node `n` exists and its `'type'` equals `ty`". -/
def typeIs (G : NXGraph) (n : Nat) (ty : String) : Bool :=
  match nodeTypeE G n with
  | .ok s => s == ty
  | .error _ => false

/-- The list comprehension filter `[n for n in ns if G.node[n]['type'] ==
typename]`: raises `KeyError` at the first element whose type attribute
cannot be read. -/
def filterByTypeE (G : NXGraph) (ns : List Nat) (ty : String) :
    Except PyErr (List Nat) :=
  match ns with
  | [] => .ok []
  | n :: rest => do
    let t ← nodeTypeE G n
    let r ← filterByTypeE G rest ty
    .ok (if t = ty then n :: r else r)

/-- Nodes within `r` hops of `seed` (with repetitions; the callers only
ever use the result as a set).  `ballList G seed r` lists every node at
distance at most `r` from `seed`, as `networkx.ego_graph` returns. -/
def ballList (G : NXGraph) (seed : Nat) : Nat → List Nat
  | 0 => [seed]
  | k + 1 =>
    let prev := ballList G seed k
    prev ++ prev.flatMap (fun m => neighborIds G m)

/-- `networkx.ego_graph(G, seed, radius)` node set: raises `NodeNotFound`
when `seed` is missing (networkx ≥ 2.0 behavior). -/
def egoE (G : NXGraph) (seed : Nat) (radius : Nat) :
    Except PyErr (List Nat) :=
  if hasNodeB G seed then .ok (ballList G seed radius)
  else .error .nodeNotFound

/-- `neighbors_by_type(G, seed, typename, radius)` from
`wirecell/util/wires/graph.py`: for `radius == 1` filter the direct
neighbors by type, otherwise filter the radius-`radius` ego graph by
type; the Python `set(...)` is a `Finset`. -/
def neighbors_by_type (G : NXGraph) (seed : Nat) (ty : String)
    (radius : Nat) : Except PyErr (Finset Nat) :=
  if radius = 1 then do
    let ns ← nxNeighborsE G seed
    let fs ← filterByTypeE G ns ty
    .ok fs.toFinset
  else do
    let ns ← egoE G seed radius
    let fs ← filterByTypeE G ns ty
    .ok fs.toFinset

/-- Scan a neighbor list for the first node of the wanted type, reading
each node's `'type'` attribute in order (as the loop in `parent` does). -/
def findParent (G : NXGraph) (ns : List Nat) (pty : String) :
    Except PyErr (Option Nat) :=
  match ns with
  | [] => .ok none
  | n :: rest => do
    let t ← nodeTypeE G n
    if t = pty then .ok (some n) else findParent G rest pty

/-- `parent(G, child, parent_type)` from `wirecell/util/wires/graph.py`,
with the child given as an `Option` because `channel_address` feeds each
`parent` result (possibly `None`) into the next call; `networkx.neighbors`
on the Python value `None` raises `NetworkXError` since `None` is not a
node. -/
def parentE (G : NXGraph) (child : Option Nat) (pty : String) :
    Except PyErr (Option Nat) :=
  match child with
  | none => .error .networkXError
  | some c => do
    let ns ← nxNeighborsE G c
    findParent G ns pty

/-- The first stored edge joining `x` and `y`, in either orientation. -/
def findEdge (G : NXGraph) (x y : Nat) : Option NXEdge :=
  G.edges.find? (fun e => (e.a == x && e.b == y) || (e.a == y && e.b == x))

/-- `G[a][b][key]`: each stage is a dictionary lookup, so a missing node,
a missing edge, a `None` operand or a missing attribute key all raise
`KeyError`. -/
def edgeAttrE (G : NXGraph) (x y : Option Nat) (key : String) :
    Except PyErr Int :=
  match x with
  | none => .error .keyError
  | some x' =>
    if hasNodeB G x' then
      match y with
      | none => .error .keyError
      | some y' =>
        match findEdge G x' y' with
        | none => .error .keyError
        | some e =>
          match e.attrs.lookup key with
          | none => .error .keyError
          | some v => .ok v
    else .error .keyError

/-- `channel_address(G, wire)` from `wirecell/util/wires/graph.py`: walk
the parent chain wire→conductor→channel→chip→board→{face,wib}→apa and
read the edge attributes `slot`, `connector`, `spot`, `address`;
returns `(iconn, islot, ichip, iaddr)`. -/
def channel_address (G : NXGraph) (wire : Nat) :
    Except PyErr (Int × Int × Int × Int) := do
  let conductor ← parentE G (some wire) "conductor"
  let channel ← parentE G conductor "channel"
  let chip ← parentE G channel "chip"
  let board ← parentE G chip "board"
  let _box ← parentE G board "face"
  let wib ← parentE G board "wib"
  let apa ← parentE G wib "apa"
  let islot ← edgeAttrE G apa wib "slot"
  let iconn ← edgeAttrE G wib board "connector"
  let ichip ← edgeAttrE G board chip "spot"
  let iaddr ← edgeAttrE G chip channel "address"
  .ok (iconn, islot, ichip, iaddr)

deriving instance DecidableEq for Except

/-! ## Cluster graph, drift transform and blob sampling

The converter module (`wirecell.img.converter`: `undrift`, `blob_center`,
`blob_uniform_sample`, `blobpoints`) is not among the provided sources —
only its callers in `wirecell/img/__main__.py` are — so the definitions
below are modelled from the spec (sections 4.2 and 4.3), with the drift
formula corroborated by the `paraview_depos` command in
`wirecell/img/__main__.py` which computes `x = speed*(t + t0)`. -/

/-- A sampled point `(x, y, z, q)`: a 3D position plus an apportioned
charge weight. -/
structure SampledPoint where
  x : ℚ
  y : ℚ
  z : ℚ
  q : ℚ
deriving DecidableEq, Repr

/-- A blob payload: its scalar `value` (deposited charge), the estimated
volume of its polytope, and the polytope centroid. -/
structure Blob where
  value : ℚ
  volume : ℚ
  cx : ℚ
  cy : ℚ
  cz : ℚ
deriving DecidableEq, Repr

/-- A cluster-graph node: a one-letter `code` tag, an optional time
attribute `t`, the spatial drift coordinate `x`, and (for blob nodes) the
blob payload. -/
structure CNode where
  id : Nat
  code : Char
  t : Option ℚ
  x : ℚ
  blob : Option Blob
deriving DecidableEq, Repr

/-- An attributed cluster graph, reduced to its node payloads (the edges
play no role in the drift transform or the sampling step). -/
structure ClusterGraph where
  nodes : List CNode
deriving DecidableEq, Repr

/-- The elementwise transform applied by `paraview_depos` in
`wirecell/img/__main__.py`: `depos['x'] = speed*(depos['t']+t0)`. -/
def paraviewDeposX (speed t0 τ : ℚ) : ℚ := speed * (τ + t0)

/-- Modelled from the spec: `converter.undrift(graph, speed, t0)` is not
under the provided sources.  For every node carrying a time attribute
`t`, set `x = speed*(t + t0)` on a copied payload; nodes without a time
attribute are copied unchanged. -/
def undrift (g : ClusterGraph) (speed t0 : ℚ) : ClusterGraph :=
  ⟨g.nodes.map (fun nd =>
    match nd.t with
    | some τ => { nd with x := speed * (τ + t0) }
    | none => nd)⟩

/-- `nodes_of_type(code)`: identifiers of all nodes whose `code` equals
the tag, in graph-iteration order. -/
def nodesOfType (g : ClusterGraph) (c : Char) : List Nat :=
  (g.nodes.filter (fun nd => nd.code = c)).map (fun nd => nd.id)

/-- Modelled from the spec: `converter.blob_center` is not under the
provided sources.  One point at the polytope centroid carrying the blob's
full `value`. -/
def blob_center (b : Blob) : List SampledPoint :=
  [⟨b.cx, b.cy, b.cz, b.value⟩]

/-- The point count of uniform sampling: `n = max(1, round(density *
volume))`. -/
def uniformCount (b : Blob) (density : ℚ) : ℤ :=
  max 1 (pyRound (density * b.volume))

/-- Modelled from the spec: `converter.blob_uniform_sample(b, density)`
is not under the provided sources.  Draw `n = max(1, round(density *
volume))` points inside the polytope — the drawn positions are abstracted
by the oracle `pos` — and assign each the charge `q = value / n`. -/
def blob_uniform_sample (pos : Nat → ℚ × ℚ × ℚ) (b : Blob) (density : ℚ) :
    List SampledPoint :=
  let n := uniformCount b density
  (List.range n.toNat).map (fun i =>
    ⟨(pos i).1, (pos i).2.1, (pos i).2.2, b.value / (n : ℚ)⟩)

/-- The total charge carried by a list of sampled points. -/
def sumQ (pts : List SampledPoint) : ℚ :=
  (pts.map (fun p => p.q)).sum

/-- Modelled from the spec: `converter.blobpoints(gr, sampling_func)` is
not under the provided sources.  Apply the sampling function to every
blob node's payload and concatenate the points. -/
def blobpoints (g : ClusterGraph) (f : Blob → List SampledPoint) :
    List SampledPoint :=
  (g.nodes.filter (fun nd => nd.code = 'b')).flatMap (fun nd =>
    match nd.blob with
    | some b => f b
    | none => [])

/-- The zero-node cluster graph. -/
def emptyCG : ClusterGraph := ⟨[]⟩

/-- What a per-graph driver does with one graph. -/
inductive DriverAction where
  | exitError (code : Int)
  | skipped
  | processed
deriving DecidableEq, Repr

/-- The `do_one` closure of the `paraview-blobs` command
(`wirecell/img/__main__.py`): undrift, then `sys.exit(-1)` when the graph
has zero nodes, else convert and write. -/
def paraviewDoOne (g : ClusterGraph) (speed t0 : ℚ) : DriverAction :=
  let g' := undrift g speed t0
  if g'.nodes.length = 0 then .exitError (-1) else .processed

/-- The per-file step of the `bee-blobs` command
(`wirecell/img/__main__.py`): undrift, then skip ("nothing to do") when
the graph has zero nodes, else sample and accumulate. -/
def beeStep (g : ClusterGraph) (speed t0 : ℚ) : DriverAction :=
  let g' := undrift g speed t0
  if g'.nodes.length = 0 then .skipped else .processed

/-! ## The bee-blobs JSON packaging (`bee_blobs` in
`wirecell/img/__main__.py`) -/

/-- A JSON value of the bee output dictionary. -/
inductive BeeVal where
  | iv (n : Int)
  | sv (s : String)
  | av (xs : List ℚ)
deriving DecidableEq, Repr

/-- The bee output dictionary: an insertion-ordered association list, as
a Python `dict`. -/
abbrev BeeDict := List (String × BeeVal)

/-- `dat = dict(runNo=.., subRunNo=.., eventNo=.., geom=.., type="wire-cell",
x=[], y=[], z=[], q=[])`. -/
def beeInit (rse : Int × Int × Int) (geom : String) : BeeDict :=
  [("runNo", .iv rse.1), ("subRunNo", .iv rse.2.1), ("eventNo", .iv rse.2.2),
   ("geom", .sv geom), ("type", .sv "wire-cell"),
   ("x", .av []), ("y", .av []), ("z", .av []), ("q", .av [])]

/-- `dat[k] += vs`: extend the array stored at an existing key. -/
def dictAppend (d : BeeDict) (k : String) (vs : List ℚ) : BeeDict :=
  d.map (fun p =>
    if p.1 = k then
      (p.1, match p.2 with | .av xs => .av (xs ++ vs) | v => v)
    else p)

/-- The array stored under a key (empty when absent or not an array). -/
def getArr (d : BeeDict) (k : String) : List ℚ :=
  match d.lookup k with
  | some (.av xs) => xs
  | _ => []

/-- `fclean(arr) = [round(a, 3) for a in arr]` from `bee_blobs`. -/
def fclean (arr : List ℚ) : List ℚ := arr.map round3

/-- The loop body of `bee_blobs` for one cluster file: undrift the
graph, skip it when it has zero nodes, otherwise sample its blobs and
append the rounded coordinate arrays (divided by `units.cm`) and the
rounded charge array. -/
def beeFileStep (cm speed t0 : ℚ) (f : Blob → List SampledPoint)
    (d : BeeDict) (g : ClusterGraph) : BeeDict :=
  let g' := undrift g speed t0
  if g'.nodes.length = 0 then d
  else
    let pts := blobpoints g' f
    let d := dictAppend d "x" (fclean (pts.map (fun p => p.x / cm)))
    let d := dictAppend d "y" (fclean (pts.map (fun p => p.y / cm)))
    let d := dictAppend d "z" (fclean (pts.map (fun p => p.z / cm)))
    dictAppend d "q" (fclean (pts.map (fun p => p.q)))

/-- `bee_blobs` (`wirecell/img/__main__.py`): build the output dictionary
and accumulate over the (first graph of each of the) cluster files. -/
def bee_blobs (cm speed t0 : ℚ) (f : Blob → List SampledPoint)
    (rse : Int × Int × Int) (geom : String) (files : List ClusterGraph) :
    BeeDict :=
  files.foldl (beeFileStep cm speed t0 f) (beeInit rse geom)

/-- The bee dictionary with given coordinate and charge arrays: the
shape `bee_blobs` maintains throughout its accumulation loop. -/
def beeDictWith (rse : Int × Int × Int) (geom : String)
    (X Y Z Q : List ℚ) : BeeDict :=
  [("runNo", .iv rse.1), ("subRunNo", .iv rse.2.1), ("eventNo", .iv rse.2.2),
   ("geom", .sv geom), ("type", .sv "wire-cell"),
   ("x", .av X), ("y", .av Y), ("z", .av Z), ("q", .av Q)]

/-- The rounded projection array accumulated over the (non-empty) input
graphs: what `bee_blobs` stores under each of its array keys. -/
def beeArr (s t0 : ℚ) (f : Blob → List SampledPoint)
    (files : List ClusterGraph) (proj : SampledPoint → ℚ) : List ℚ :=
  files.flatMap (fun g =>
    if (undrift g s t0).nodes.length = 0 then []
    else fclean ((blobpoints (undrift g s t0) f).map proj))

/-! ## The impact-bin index lookup
(`impact_linspace_index` in `wirecell/sigproc/response/plots.py`) -/

/-- `impact_linspace_index(ls, pitchpos)` from
`wirecell/sigproc/response/plots.py`: map a pitch position to the
absolute bin indices holding it and the reflected indices.  A position
mapping outside `[0, nbins)` raises `IndexError` (as does an `ls` too
short to index); an odd bin index fails the `assert`. -/
def impact_linspace_index (ls : List ℚ) (pitchpos : ℚ) :
    Except PyErr (List ℤ × List ℤ) :=
  match ls.get? 0, ls.get? 1 with
  | some l0, some l1 =>
    let nbins : ℤ := (ls.length : ℤ) - 1
    let d := l1 - l0
    let ind := pyRound ((pitchpos - l0) / d)
    if ind < 0 ∨ nbins ≤ ind then .error .indexError
    else if ¬ ind % 2 = 0 then .error .assertionError
    else if ind % 10 = 0 then
      let i2 := if ind % 20 = 10 then ind - 1 else ind
      .ok ([i2], [nbins - 1 - i2])
    else
      .ok ([ind - 1, ind], [nbins - 1 - (ind - 1), nbins - 1 - ind])
  | _, _ => .error .indexError

/-! ## Helper notions and lemmas -/

/-- Every edge endpoint is a node: networkx guarantees this (adding an
edge adds its endpoints). -/
def EdgeClosed (G : NXGraph) : Prop :=
  ∀ e ∈ G.edges, hasNodeB G e.a = true ∧ hasNodeB G e.b = true

/-- Every node carries a `'type'` attribute. -/
def WellTyped (G : NXGraph) : Prop :=
  ∀ nd ∈ G.nodes, nd.ty.isSome = true

instance (G : NXGraph) : Decidable (EdgeClosed G) :=
  List.decidableBAll _ _

instance (G : NXGraph) : Decidable (WellTyped G) :=
  List.decidableBAll _ _

/-- Monadic map used to spell out sequential radius-1 expansions. -/
def mapME (f : Nat → Except PyErr (List Nat)) :
    List Nat → Except PyErr (List (List Nat))
  | [] => .ok []
  | n :: rest => do
    let r ← f n
    let rs ← mapME f rest
    .ok (r :: rs)

/-- Two sequential radius-1 expansions, unioned and filtered by type:
the radius-1 neighbors of the seed together with the radius-1 neighbors
of each of those, filtered by the type tag. -/
def twoExpansionE (G : NXGraph) (seed : Nat) (ty : String) :
    Except PyErr (Finset Nat) := do
  let ns ← nxNeighborsE G seed
  let inner ← mapME (nxNeighborsE G) ns
  let fs ← filterByTypeE G (ns ++ inner.flatMap id) ty
  .ok fs.toFinset

/-! ## Concrete fixtures used to instantiate the theorems -/

/-- The fixture hierarchy wire→conductor→channel→chip→board→{face,wib}→apa
with edge attributes `slot=2`, `connector=1`, `spot=0`, `address=5`. -/
def fixtureG : NXGraph where
  nodes := [⟨0, some "wire"⟩, ⟨1, some "conductor"⟩, ⟨2, some "channel"⟩,
            ⟨3, some "chip"⟩, ⟨4, some "board"⟩, ⟨5, some "face"⟩,
            ⟨6, some "wib"⟩, ⟨7, some "apa"⟩]
  edges := [⟨0, 1, []⟩, ⟨1, 2, []⟩, ⟨2, 3, [("address", 5)]⟩,
            ⟨3, 4, [("spot", 0)]⟩, ⟨4, 5, []⟩, ⟨4, 6, [("connector", 1)]⟩,
            ⟨6, 7, [("slot", 2)]⟩]

/-- A graph holding a single isolated wire node: its wire has no
conductor parent, and node `99` does not exist. -/
def Gbad : NXGraph where
  nodes := [⟨0, some "wire"⟩]
  edges := []

/-- A hierarchy complete up to the wib but with no apa node. -/
def Gchain : NXGraph where
  nodes := [⟨0, some "wire"⟩, ⟨1, some "conductor"⟩, ⟨2, some "channel"⟩,
            ⟨3, some "chip"⟩, ⟨4, some "board"⟩, ⟨5, some "face"⟩,
            ⟨6, some "wib"⟩]
  edges := [⟨0, 1, []⟩, ⟨1, 2, []⟩, ⟨2, 3, []⟩, ⟨3, 4, []⟩, ⟨4, 5, []⟩,
            ⟨4, 6, []⟩]

/-- A two-node path `0 — 1` with both nodes of type `"w"`. -/
def Gpath : NXGraph where
  nodes := [⟨0, some "w"⟩, ⟨1, some "w"⟩]
  edges := [⟨0, 1, []⟩]

/-- A degenerate blob: zero volume, nonzero value. -/
def b0 : Blob := ⟨5, 0, 0, 0, 0⟩

/-- A one-node cluster graph whose node carries a time attribute `t = 0`. -/
def g1 : ClusterGraph := ⟨[⟨0, 'b', some 0, 7, none⟩]⟩

/-- A one-blob cluster graph: the blob has value 7 and centroid
`(1, 2, 3)`. -/
def g2 : ClusterGraph := ⟨[⟨0, 'b', none, 0, some ⟨7, 1, 1, 2, 3⟩⟩]⟩

/-- A single-file input list for the bee-blobs pipeline. -/
def files1 : List ClusterGraph := [g2]

/-- A three-edge linspace `[0, 1, 2]` (two bins). -/
def ls0 : List ℚ := [0, 1, 2]

theorem exceptBindOk {α β : Type} {x : Except PyErr α}
    {f : α → Except PyErr β} {b : β}
    (h : x.bind f = .ok b) : ∃ a, x = .ok a ∧ f a = .ok b := by
  cases x with
  | error e => simp [Except.bind] at h
  | ok a => exact ⟨a, rfl, h⟩

theorem mem_neighborIds {G : NXGraph} {n x : Nat} :
    x ∈ neighborIds G n ↔ adjB G n x = true := by
  simp only [neighborIds, adjB, List.mem_filterMap, List.any_eq_true,
    Bool.or_eq_true, Bool.and_eq_true, beq_iff_eq]
  constructor
  · rintro ⟨e, he, hf⟩
    refine ⟨e, he, ?_⟩
    by_cases h1 : e.a = n
    · simp only [h1, if_true, Option.some.injEq] at hf
      exact Or.inl ⟨h1, hf⟩
    · by_cases h2 : e.b = n
      · simp only [h1, if_false, h2, if_true, Option.some.injEq] at hf
        exact Or.inr ⟨hf, h2⟩
      · simp [h1, h2] at hf
  · rintro ⟨e, he, ⟨h1, h2⟩ | ⟨h1, h2⟩⟩
    · exact ⟨e, he, by simp [h1, h2]⟩
    · refine ⟨e, he, ?_⟩
      by_cases h3 : e.a = n
      · simp only [h3, if_true, Option.some.injEq]
        omega
      · simp [h3, h2]
        omega

theorem adjB_comm {G : NXGraph} {x y : Nat} :
    adjB G x y = true ↔ adjB G y x = true := by
  simp only [adjB, List.any_eq_true, Bool.or_eq_true, Bool.and_eq_true,
    beq_iff_eq]
  constructor
  · rintro ⟨e, he, h | h⟩
    · exact ⟨e, he, Or.inr h⟩
    · exact ⟨e, he, Or.inl h⟩
  · rintro ⟨e, he, h | h⟩
    · exact ⟨e, he, Or.inr h⟩
    · exact ⟨e, he, Or.inl h⟩

theorem neighborIds_symm {G : NXGraph} {n x : Nat} :
    x ∈ neighborIds G n ↔ n ∈ neighborIds G x := by
  rw [mem_neighborIds, mem_neighborIds]
  exact adjB_comm

theorem hasNodeB_iff {G : NXGraph} {x : Nat} :
    hasNodeB G x = true ↔ ∃ nd ∈ G.nodes, nd.id = x := by
  simp [hasNodeB, List.any_eq_true]

theorem nodeTypeE_ok_of {G : NXGraph} {x : Nat}
    (hT : WellTyped G) (hx : hasNodeB G x = true) :
    ∃ s, nodeTypeE G x = .ok s := by
  rcases hasNodeB_iff.mp hx with ⟨nd, hnd, hid⟩
  have hfind : (G.nodes.find? (fun nd => nd.id == x)).isSome := by
    rw [List.find?_isSome]
    exact ⟨nd, hnd, by simp [hid]⟩
  rcases Option.isSome_iff_exists.mp hfind with ⟨nd', hnd'⟩
  have hmem' : nd' ∈ G.nodes := List.mem_of_find?_eq_some hnd'
  rcases Option.isSome_iff_exists.mp (hT nd' hmem') with ⟨s, hs⟩
  exact ⟨s, by simp [nodeTypeE, hnd', hs]⟩

theorem neighborIds_hasNode {G : NXGraph} {n x : Nat}
    (hC : EdgeClosed G) (hx : x ∈ neighborIds G n) :
    hasNodeB G x = true := by
  have := mem_neighborIds.mp hx
  simp only [adjB, List.any_eq_true, Bool.or_eq_true, Bool.and_eq_true,
    beq_iff_eq] at this
  rcases this with ⟨e, he, ⟨_, h2⟩ | ⟨h1, _⟩⟩
  · exact h2 ▸ (hC e he).2
  · exact h1 ▸ (hC e he).1

theorem exceptOkBind {α β : Type} (a : α) (f : α → Except PyErr β) :
    (Except.ok a : Except PyErr α) >>= f = f a := rfl

theorem filterByTypeE_eq {G : NXGraph} {ns : List Nat} {ty : String}
    (h : ∀ n ∈ ns, ∃ s, nodeTypeE G n = .ok s) :
    filterByTypeE G ns ty = .ok (ns.filter (fun n => typeIs G n ty)) := by
  induction ns with
  | nil => rfl
  | cons n rest ih =>
    rcases h n (List.mem_cons_self n rest) with ⟨s, hs⟩
    have ih' := ih (fun m hm => h m (List.mem_cons_of_mem n hm))
    simp only [filterByTypeE, hs, ih', exceptOkBind, List.filter_cons]
    have hmatch : typeIs G n ty = (s == ty) := by simp [typeIs, hs]
    by_cases hty : s = ty
    · simp [hmatch, hty]
    · simp [hmatch, hty]

theorem filterByTypeE_ok_eq {G : NXGraph} {ns l : List Nat} {ty : String}
    (h : filterByTypeE G ns ty = .ok l) :
    l = ns.filter (fun n => typeIs G n ty) := by
  induction ns generalizing l with
  | nil =>
    simp only [filterByTypeE, Except.ok.injEq] at h
    rw [← h]
    rfl
  | cons n rest ih =>
    simp only [filterByTypeE] at h
    rcases exceptBindOk h with ⟨t, ht, h2⟩
    rcases exceptBindOk h2 with ⟨r, hr, h3⟩
    simp only [Except.ok.injEq] at h3
    have hrr := ih hr
    have : typeIs G n ty = (t == ty) := by simp [typeIs, ht]
    by_cases hty : t = ty
    · simp [List.filter_cons, this, hty, ← h3, hrr]
    · simp [List.filter_cons, this, hty, ← h3, hrr]

theorem seed_mem_ballList {G : NXGraph} {seed : Nat} :
    ∀ r, seed ∈ ballList G seed r
  | 0 => by simp [ballList]
  | r + 1 => by
    simp only [ballList, List.mem_append]
    exact Or.inl (seed_mem_ballList r)

theorem ballList_hasNode {G : NXGraph} {seed : Nat}
    (hC : EdgeClosed G) (hs : hasNodeB G seed = true) :
    ∀ r, ∀ x ∈ ballList G seed r, hasNodeB G x = true
  | 0 => by
    intro x hx
    simp only [ballList, List.mem_singleton] at hx
    exact hx ▸ hs
  | r + 1 => by
    intro x hx
    simp only [ballList, List.mem_append, List.mem_flatMap] at hx
    rcases hx with hx | ⟨m, _, hx⟩
    · exact ballList_hasNode hC hs r x hx
    · exact neighborIds_hasNode hC hx

theorem ballList_one (G : NXGraph) (seed : Nat) :
    ballList G seed 1 = seed :: neighborIds G seed := by
  simp [ballList]

theorem mem_ballList_two {G : NXGraph} {seed x : Nat} :
    x ∈ ballList G seed 2 ↔
      x = seed ∨ x ∈ neighborIds G seed ∨
        ∃ m ∈ neighborIds G seed, x ∈ neighborIds G m := by
  have h2 : ballList G seed 2 =
      ballList G seed 1 ++
        (ballList G seed 1).flatMap (fun m => neighborIds G m) := rfl
  rw [h2, ballList_one]
  simp only [List.mem_append, List.mem_cons, List.mem_flatMap]
  constructor
  · rintro ((h | h) | ⟨m, (hm | hm), hx⟩)
    · exact Or.inl h
    · exact Or.inr (Or.inl h)
    · exact Or.inr (Or.inl (hm ▸ hx))
    · exact Or.inr (Or.inr ⟨m, hm, hx⟩)
  · rintro (h | h | ⟨m, hm, hx⟩)
    · exact Or.inl (Or.inl h)
    · exact Or.inl (Or.inr h)
    · exact Or.inr ⟨m, Or.inr hm, hx⟩

theorem exceptErrorBind {α β : Type} (e : PyErr) (f : α → Except PyErr β) :
    (Except.error e : Except PyErr α) >>= f = .error e := rfl

theorem mapME_eq {G : NXGraph} {ns : List Nat}
    (h : ∀ n ∈ ns, hasNodeB G n = true) :
    mapME (nxNeighborsE G) ns = .ok (ns.map (fun m => neighborIds G m)) := by
  induction ns with
  | nil => rfl
  | cons n rest ih =>
    have hn := h n (List.mem_cons_self n rest)
    have ih' := ih (fun m hm => h m (List.mem_cons_of_mem n hm))
    simp [mapME, nxNeighborsE, hn, ih', exceptOkBind]

/-! ## Claim theorems -/

/-- Claim C3: `channel_address(wire)` walks the fixed parent chain
wire→conductor→channel→chip→board→{wib,face}→apa reading the edge
attributes `slot`, `connector`, `spot`, `address`, and on a fixture
hierarchy whose edges carry `slot=2`, `connector=1`, `spot=0`,
`address=5` it returns `(1, 2, 0, 5)`. -/
theorem C3_channel_address_fixture :
    channel_address fixtureG 0 = .ok (1, 2, 0, 5) := by decide

/-- Claim C4 as stated is false: on a graph whose wire node has no
conductor parent, `channel_address` propagates `None` into
`networkx.neighbors`, which raises `NetworkXError` — not a
`LookupError`; likewise `neighbors_by_type` on a missing node raises
`NetworkXError`. -/
theorem C4_counterexample :
    channel_address Gbad 0 = .error .networkXError ∧
    neighbors_by_type Gbad 99 "conductor" 1 = .error .networkXError ∧
    PyErr.isLookupError .networkXError = false := by decide

/-- Claim C4, amended: when the queried node does not exist
(`neighbors_of_type`) or an expected parent is absent
(`channel_address`), the operation fails by raising an exception, but
not always `LookupError`: a missing seed node raises the graph
library's `NetworkXError` (radius 1) or `NodeNotFound` (other radii),
an absent intermediate parent makes `channel_address` raise
`NetworkXError`, and only the absence of the final parent (the apa)
surfaces as `KeyError`, which is a `LookupError`. -/
theorem C4_amended_failure_modes :
    (∀ (G : NXGraph) (seed : Nat) (ty : String),
        hasNodeB G seed = false →
        neighbors_by_type G seed ty 1 = .error .networkXError ∧
        ∀ r, r ≠ 1 → neighbors_by_type G seed ty r = .error .nodeNotFound) ∧
    (∀ (G : NXGraph) (w : Nat),
        parentE G (some w) "conductor" = .ok none →
        channel_address G w = .error .networkXError) ∧
    (∀ (G : NXGraph) (w c ch chp bd : Nat) (bx : Option Nat) (wb : Nat),
        parentE G (some w) "conductor" = .ok (some c) →
        parentE G (some c) "channel" = .ok (some ch) →
        parentE G (some ch) "chip" = .ok (some chp) →
        parentE G (some chp) "board" = .ok (some bd) →
        parentE G (some bd) "face" = .ok bx →
        parentE G (some bd) "wib" = .ok (some wb) →
        parentE G (some wb) "apa" = .ok none →
        channel_address G w = .error .keyError) ∧
    PyErr.isLookupError .networkXError = false ∧
    PyErr.isLookupError .nodeNotFound = false ∧
    PyErr.isLookupError .keyError = true := by
  refine ⟨?_, ?_, ?_, rfl, rfl, rfl⟩
  · intro G seed ty h
    constructor
    · simp [neighbors_by_type, nxNeighborsE, h, exceptErrorBind]
    · intro r hr
      simp [neighbors_by_type, hr, egoE, h, exceptErrorBind]
  · intro G w h
    have hp : parentE G none "channel" = Except.error PyErr.networkXError :=
      rfl
    simp only [channel_address, h, exceptOkBind, hp, exceptErrorBind]
  · intro G w c ch chp bd bx wb h1 h2 h3 h4 h5 h6 h7
    simp [channel_address, h1, h2, h3, h4, h5, h6, h7, exceptOkBind,
      edgeAttrE, exceptErrorBind]

/-- Witness for the amended claim C4: concrete graphs exhibiting each
failure mode. -/
theorem C4_amended_witness :
    neighbors_by_type Gbad 99 "conductor" 1 = .error .networkXError ∧
    channel_address Gbad 0 = .error .networkXError ∧
    channel_address Gchain 0 = .error .keyError :=
  ⟨(C4_amended_failure_modes.1 Gbad 99 "conductor" (by decide)).1,
   C4_amended_failure_modes.2.1 Gbad 0 (by decide),
   C4_amended_failure_modes.2.2.1 Gchain 0 1 2 3 4 (some 5) 6
     (by decide) (by decide) (by decide) (by decide) (by decide)
     (by decide) (by decide)⟩

/-- Claim C1 (the converter is modelled from the spec): the sum of the
charge weights `q` over the points returned for a blob equals the
blob's `value`, for both the center and the uniform policies — exactly,
since the embedding works in exact rational arithmetic. -/
theorem C1_charge_conservation (b : Blob) (density : ℚ)
    (pos : Nat → ℚ × ℚ × ℚ) :
    sumQ (blob_center b) = b.value ∧
    sumQ (blob_uniform_sample pos b density) = b.value := by
  constructor
  · simp [sumQ, blob_center]
  · have hn1 : (1 : ℤ) ≤ uniformCount b density := le_max_left _ _
    have hq : ((uniformCount b density : ℤ) : ℚ) ≠ 0 := by
      have h0 : (0 : ℤ) < uniformCount b density := by omega
      exact_mod_cast h0.ne'
    have hmap : (blob_uniform_sample pos b density).map (fun p => p.q)
        = List.replicate (uniformCount b density).toNat
            (b.value / ((uniformCount b density : ℤ) : ℚ)) := by
      rw [List.eq_replicate_iff]
      constructor
      · simp [blob_uniform_sample]
      · intro q hq'
        simp only [blob_uniform_sample, List.map_map, List.mem_map,
          Function.comp] at hq'
        rcases hq' with ⟨i, _, rfl⟩
        rfl
    rw [sumQ, hmap, List.sum_replicate, nsmul_eq_mul]
    have hcast : (((uniformCount b density).toNat : ℚ))
        = ((uniformCount b density : ℤ) : ℚ) := by
      exact_mod_cast congrArg (fun z : ℤ => (z : ℚ))
        (Int.toNat_of_nonneg (by omega))
    rw [hcast, mul_comm, div_mul_cancel₀ _ hq]

/-- Claim C5 (the converter is modelled from the spec): uniform sampling
at density `d` on a blob of volume `V` returns exactly
`max(1, round(d*V))` points, each with charge `value/n`, and always at
least one point — in particular on a zero-volume blob. -/
theorem C5_uniform_count (b : Blob) (density : ℚ)
    (pos : Nat → ℚ × ℚ × ℚ) :
    (blob_uniform_sample pos b density).length
      = (uniformCount b density).toNat ∧
    1 ≤ (blob_uniform_sample pos b density).length ∧
    ∀ p ∈ blob_uniform_sample pos b density,
      p.q = b.value / ((uniformCount b density : ℤ) : ℚ) := by
  refine ⟨by simp [blob_uniform_sample], ?_, ?_⟩
  · have hn1 : (1 : ℤ) ≤ uniformCount b density := le_max_left _ _
    simp only [blob_uniform_sample, List.length_map, List.length_range]
    omega
  · intro p hp
    simp only [blob_uniform_sample, List.mem_map, List.mem_range] at hp
    rcases hp with ⟨i, _, rfl⟩
    rfl

/-- Witness for claim C5: the zero-volume blob `b0` yields exactly one
point, and that point carries the blob's full value. -/
theorem C5_uniform_count_witness :
    (blob_uniform_sample (fun _ => (0, 0, 0)) b0 9).length
      = (uniformCount b0 9).toNat ∧
    (⟨0, 0, 0, 5⟩ : SampledPoint).q
      = b0.value / ((uniformCount b0 9 : ℤ) : ℚ) := by
  have hc : uniformCount b0 9 = 1 := by
    norm_num [uniformCount, b0, pyRound]
  have hmem : (⟨0, 0, 0, 5⟩ : SampledPoint) ∈
      blob_uniform_sample (fun _ => (0, 0, 0)) b0 9 := by
    simp only [blob_uniform_sample, hc]
    simp [b0, List.range_succ]
  exact ⟨(C5_uniform_count b0 9 (fun _ => (0, 0, 0))).1,
    (C5_uniform_count b0 9 (fun _ => (0, 0, 0))).2.2 ⟨0, 0, 0, 5⟩ hmem⟩

/-- Claim C2 (the converter is modelled from the spec, the formula
corroborated by `paraview_depos` in `wirecell/img/__main__.py`): the
drift transform sets `x = speed*(t + t0)` on a copied payload for every
node carrying a time attribute; with `speed = 0` every such coordinate
is the speed-independent value `0`; with `t ≡ 0` on all nodes and
`t0 = 0` every resulting coordinate is zero. -/
theorem C2_undrift_formula (g : ClusterGraph) (s t0 : ℚ) :
    (∀ nd ∈ g.nodes, ∀ τ, nd.t = some τ →
        ∃ nd' ∈ (undrift g s t0).nodes,
          nd'.id = nd.id ∧ nd'.code = nd.code ∧
          nd'.x = s * (τ + t0) ∧ nd'.x = paraviewDeposX s t0 τ) ∧
    (s = 0 → ∀ nd' ∈ (undrift g s t0).nodes,
        nd'.t.isSome = true → nd'.x = 0) ∧
    ((t0 = 0 ∧ ∀ nd ∈ g.nodes, nd.t = some 0) →
        ∀ nd' ∈ (undrift g s t0).nodes, nd'.x = 0) := by
  refine ⟨?_, ?_, ?_⟩
  · intro nd hnd τ hτ
    refine ⟨{ nd with x := s * (τ + t0) }, ?_, rfl, rfl, rfl, rfl⟩
    have hf : (fun nd : CNode =>
        match nd.t with
        | some τ => { nd with x := s * (τ + t0) }
        | none => nd) nd = { nd with x := s * (τ + t0) } := by
      simp [hτ]
    exact hf ▸ List.mem_map_of_mem _ hnd
  · intro hs0 nd' hnd' ht
    subst hs0
    rcases List.mem_map.mp hnd' with ⟨nd, hnd, rfl⟩
    cases hcase : nd.t with
    | none => simp [hcase] at ht
    | some τ => simp [hcase]
  · rintro ⟨ht0, hall⟩ nd' hnd'
    subst ht0
    rcases List.mem_map.mp hnd' with ⟨nd, hnd, rfl⟩
    simp [hall nd hnd]

/-- Witness for claim C2: on a one-node graph with `t = 0`, `t0 = 0` and
speed 3, the undrifted node's spatial coordinate is zero. -/
theorem C2_undrift_formula_witness :
    (⟨0, 'b', some 0, 0, none⟩ : CNode).x = 0 := by
  have hmem : (⟨0, 'b', some 0, 0, none⟩ : CNode) ∈
      (undrift g1 3 0).nodes := by
    simp [undrift, g1]
  exact (C2_undrift_formula g1 3 0).2.2 ⟨rfl, by simp [g1]⟩
    ⟨0, 'b', some 0, 0, none⟩ hmem

/-- Claim C8 as stated is false in its caller part: the `paraview-blobs`
driver treats a zero-node graph as a fatal error (`sys.exit(-1)`), not
as "nothing to do". -/
theorem C8_counterexample :
    paraviewDoOne emptyCG 1 0 = .exitError (-1) ∧
    paraviewDoOne emptyCG 1 0 ≠ .skipped := by decide

/-- Claim C8, amended: on the empty cluster graph every core operation
(drift transform, sampling, typed traversal) returns an empty result
and never raises, and the `bee-blobs` driver skips the graph as nothing
to do — but the `paraview-blobs` driver exits with status `-1`. -/
theorem C8_amended_empty_graph (s t0 : ℚ) (c : Char)
    (f : Blob → List SampledPoint) :
    undrift emptyCG s t0 = emptyCG ∧
    nodesOfType emptyCG c = [] ∧
    blobpoints emptyCG f = [] ∧
    beeStep emptyCG s t0 = .skipped ∧
    paraviewDoOne emptyCG s t0 = .exitError (-1) :=
  ⟨rfl, rfl, rfl, rfl, rfl⟩

/-- Claim C9: the ego-graph expansion contains its center, so for radius
at least 2 the seed appears in its own `neighbors_by_type` result
whenever its own type matches; for radius 1 the result is a filtered
direct-neighbor list, which contains the seed only via a self-loop. -/
theorem C9_seed_membership (G : NXGraph) (seed : Nat) (ty : String)
    (r : Nat) (S : Finset Nat)
    (h : neighbors_by_type G seed ty r = .ok S) :
    (2 ≤ r → nodeTypeE G seed = .ok ty → seed ∈ S) ∧
    (r = 1 → adjB G seed seed = false → seed ∉ S) := by
  constructor
  · intro hr hty
    have hr1 : ¬ r = 1 := by omega
    simp only [neighbors_by_type, if_neg hr1] at h
    rcases exceptBindOk h with ⟨ns, hns, h2⟩
    rcases exceptBindOk h2 with ⟨fs, hfs, h3⟩
    have hns' : ns = ballList G seed r := by
      by_cases hn : hasNodeB G seed = true
      · simp only [egoE, hn, if_true, Except.ok.injEq] at hns
        exact hns.symm
      · simp [egoE, hn] at hns
    rw [hns'] at hfs
    have hfs' := filterByTypeE_ok_eq hfs
    have hS : S = fs.toFinset := by
      simp only [Except.ok.injEq] at h3
      exact h3.symm
    rw [hS, List.mem_toFinset, hfs', List.mem_filter]
    refine ⟨seed_mem_ballList r, ?_⟩
    simp [typeIs, hty]
  · intro hr hloop
    subst hr
    simp only [neighbors_by_type, if_pos rfl] at h
    rcases exceptBindOk h with ⟨ns, hns, h2⟩
    rcases exceptBindOk h2 with ⟨fs, hfs, h3⟩
    have hns' : ns = neighborIds G seed := by
      by_cases hn : hasNodeB G seed = true
      · simp only [nxNeighborsE, hn, if_true, Except.ok.injEq] at hns
        exact hns.symm
      · simp [nxNeighborsE, hn] at hns
    rw [hns'] at hfs
    have hfs' := filterByTypeE_ok_eq hfs
    have hS : S = fs.toFinset := by
      simp only [Except.ok.injEq] at h3
      exact h3.symm
    rw [hS, List.mem_toFinset, hfs', List.mem_filter]
    rintro ⟨hmem, -⟩
    rw [mem_neighborIds, hloop] at hmem
    exact Bool.noConfusion hmem

/-- Witness for claim C9 on the two-node path: radius 2 includes the
seed, radius 1 does not. -/
theorem C9_seed_membership_witness :
    (0 : Nat) ∈ ([0, 1, 1, 0] : List Nat).toFinset ∧
    (0 : Nat) ∉ ([1] : List Nat).toFinset := by
  have h2 : neighbors_by_type Gpath 0 "w" 2 =
      .ok (([0, 1, 1, 0] : List Nat).toFinset) := rfl
  have h1 : neighbors_by_type Gpath 0 "w" 1 =
      .ok (([1] : List Nat).toFinset) := rfl
  exact ⟨(C9_seed_membership Gpath 0 "w" 2 _ h2).1 (by omega) rfl,
    (C9_seed_membership Gpath 0 "w" 1 _ h1).2 rfl (by decide)⟩

/-- Claim C6 as stated is false: an isolated node trivially has no
cycles within radius 2 (the graph has no edges at all), yet the
radius-2 query returns the node itself (the ego graph contains its
center) while the union of two sequential radius-1 expansions is
empty. -/
theorem C6_counterexample :
    Gbad.edges = [] ∧
    neighbors_by_type Gbad 0 "wire" 2 = .ok (([0] : List Nat).toFinset) ∧
    twoExpansionE Gbad 0 "wire" = .ok (([] : List Nat).toFinset) ∧
    ([0] : List Nat).toFinset ≠ ([] : List Nat).toFinset := by
  refine ⟨rfl, rfl, rfl, ?_⟩
  intro h
  have h0 : (0 : Nat) ∈ ([0] : List Nat).toFinset := by simp
  rw [h] at h0
  simp at h0

/-- Claim C6, amended: for every node with at least one neighbor — the
cycle condition is neither needed nor sufficient — the radius-2 query
equals the union of two sequential radius-1 expansions (the radius-1
neighbors of the node together with the radius-1 neighbors of each of
those, filtered by the type tag); an isolated node whose type matches
is returned by the radius-2 query but not by the union. -/
theorem C6_two_expansion (G : NXGraph) (seed : Nat) (ty : String)
    (hC : EdgeClosed G) (hT : WellTyped G)
    (hs : hasNodeB G seed = true)
    (hdeg : neighborIds G seed ≠ []) :
    neighbors_by_type G seed ty 2 = twoExpansionE G seed ty := by
  have hball : ∀ x ∈ ballList G seed 2, hasNodeB G x = true :=
    ballList_hasNode hC hs 2
  have hballT : ∀ x ∈ ballList G seed 2, ∃ s, nodeTypeE G x = .ok s :=
    fun x hx => nodeTypeE_ok_of hT (hball x hx)
  have hnbrNode : ∀ n ∈ neighborIds G seed, hasNodeB G n = true :=
    fun n hn => neighborIds_hasNode hC hn
  have hego : egoE G seed 2 = .ok (ballList G seed 2) := by
    simp [egoE, hs]
  have hL : neighbors_by_type G seed ty 2 =
      .ok ((ballList G seed 2).filter (fun n => typeIs G n ty)).toFinset := by
    simp only [neighbors_by_type, hego, exceptOkBind,
      filterByTypeE_eq hballT, if_neg (by omega : ¬ (2 : Nat) = 1)]
  have hnx : nxNeighborsE G seed = .ok (neighborIds G seed) := by
    simp [nxNeighborsE, hs]
  have hmap := mapME_eq hnbrNode
  have hlist : ∀ x ∈ neighborIds G seed ++
      ((neighborIds G seed).map (fun m => neighborIds G m)).flatMap id,
      ∃ s, nodeTypeE G x = .ok s := by
    intro x hx
    apply nodeTypeE_ok_of hT
    rcases List.mem_append.mp hx with hx | hx
    · exact hnbrNode x hx
    · rcases List.mem_flatMap.mp hx with ⟨l, hl, hxl⟩
      rcases List.mem_map.mp hl with ⟨m, _, rfl⟩
      exact neighborIds_hasNode hC hxl
  have hR : twoExpansionE G seed ty =
      .ok ((neighborIds G seed ++
        ((neighborIds G seed).map (fun m => neighborIds G m)).flatMap id).filter
          (fun n => typeIs G n ty)).toFinset := by
    simp only [twoExpansionE, hnx, exceptOkBind, hmap,
      filterByTypeE_eq hlist]
  rw [hL, hR]
  congr 1
  ext x
  simp only [List.mem_toFinset, List.mem_filter]
  constructor
  · rintro ⟨hx, hty'⟩
    refine ⟨?_, hty'⟩
    rcases mem_ballList_two.mp hx with rfl | hx | ⟨m, hm, hxm⟩
    · rcases List.exists_mem_of_ne_nil _ hdeg with ⟨m0, hm0⟩
      have hsm : x ∈ neighborIds G m0 := neighborIds_symm.mp hm0
      exact List.mem_append.mpr (Or.inr (List.mem_flatMap.mpr
        ⟨neighborIds G m0, List.mem_map.mpr ⟨m0, hm0, rfl⟩, hsm⟩))
    · exact List.mem_append.mpr (Or.inl hx)
    · exact List.mem_append.mpr (Or.inr (List.mem_flatMap.mpr
        ⟨neighborIds G m, List.mem_map.mpr ⟨m, hm, rfl⟩, hxm⟩))
  · rintro ⟨hx, hty'⟩
    refine ⟨?_, hty'⟩
    rcases List.mem_append.mp hx with hx | hx
    · exact mem_ballList_two.mpr (Or.inr (Or.inl hx))
    · rcases List.mem_flatMap.mp hx with ⟨l, hl, hxl⟩
      rcases List.mem_map.mp hl with ⟨m, hm, rfl⟩
      exact mem_ballList_two.mpr (Or.inr (Or.inr ⟨m, hm, hxl⟩))

/-- Witness for the amended claim C6 on the two-node path. -/
theorem C6_two_expansion_witness :
    neighbors_by_type Gpath 0 "w" 2 = twoExpansionE Gpath 0 "w" :=
  C6_two_expansion Gpath 0 "w" (by decide) (by decide) (by decide)
    (by decide)

theorem dictAppend_beeDictWith_x (rse : Int × Int × Int) (geom : String)
    (X Y Z Q vs : List ℚ) :
    dictAppend (beeDictWith rse geom X Y Z Q) "x" vs
      = beeDictWith rse geom (X ++ vs) Y Z Q := by
  simp [dictAppend, beeDictWith]

theorem dictAppend_beeDictWith_y (rse : Int × Int × Int) (geom : String)
    (X Y Z Q vs : List ℚ) :
    dictAppend (beeDictWith rse geom X Y Z Q) "y" vs
      = beeDictWith rse geom X (Y ++ vs) Z Q := by
  simp [dictAppend, beeDictWith]

theorem dictAppend_beeDictWith_z (rse : Int × Int × Int) (geom : String)
    (X Y Z Q vs : List ℚ) :
    dictAppend (beeDictWith rse geom X Y Z Q) "z" vs
      = beeDictWith rse geom X Y (Z ++ vs) Q := by
  simp [dictAppend, beeDictWith]

theorem dictAppend_beeDictWith_q (rse : Int × Int × Int) (geom : String)
    (X Y Z Q vs : List ℚ) :
    dictAppend (beeDictWith rse geom X Y Z Q) "q" vs
      = beeDictWith rse geom X Y Z (Q ++ vs) := by
  simp [dictAppend, beeDictWith]

theorem beeFileStep_with (cm s t0 : ℚ) (f : Blob → List SampledPoint)
    (rse : Int × Int × Int) (geom : String) (X Y Z Q : List ℚ)
    (g : ClusterGraph) :
    beeFileStep cm s t0 f (beeDictWith rse geom X Y Z Q) g =
      if (undrift g s t0).nodes.length = 0 then beeDictWith rse geom X Y Z Q
      else beeDictWith rse geom
        (X ++ fclean ((blobpoints (undrift g s t0) f).map (fun p => p.x / cm)))
        (Y ++ fclean ((blobpoints (undrift g s t0) f).map (fun p => p.y / cm)))
        (Z ++ fclean ((blobpoints (undrift g s t0) f).map (fun p => p.z / cm)))
        (Q ++ fclean ((blobpoints (undrift g s t0) f).map (fun p => p.q))) := by
  by_cases h0 : (undrift g s t0).nodes.length = 0
  · simp [beeFileStep, h0]
  · simp only [beeFileStep, h0, if_neg, if_false,
      dictAppend_beeDictWith_x, dictAppend_beeDictWith_y,
      dictAppend_beeDictWith_z, dictAppend_beeDictWith_q]

theorem bee_fold (cm s t0 : ℚ) (f : Blob → List SampledPoint)
    (rse : Int × Int × Int) (geom : String) (files : List ClusterGraph) :
    ∀ X Y Z Q : List ℚ,
      files.foldl (beeFileStep cm s t0 f) (beeDictWith rse geom X Y Z Q) =
        beeDictWith rse geom
          (X ++ beeArr s t0 f files (fun p => p.x / cm))
          (Y ++ beeArr s t0 f files (fun p => p.y / cm))
          (Z ++ beeArr s t0 f files (fun p => p.z / cm))
          (Q ++ beeArr s t0 f files (fun p => p.q)) := by
  induction files with
  | nil => intro X Y Z Q; simp [beeArr]
  | cons g gs ih =>
    intro X Y Z Q
    rw [List.foldl_cons, beeFileStep_with]
    by_cases h0 : (undrift g s t0).nodes.length = 0
    · rw [if_pos h0, ih]
      have h0' : (undrift g s t0).nodes = [] := List.length_eq_zero.mp h0
      simp [beeArr, h0']
    · rw [if_neg h0, ih]
      have h0' : ¬ (undrift g s t0).nodes = [] := by
        simpa [List.length_eq_zero] using h0
      simp [beeArr, h0', List.append_assoc]

theorem bee_blobs_eq (cm s t0 : ℚ) (f : Blob → List SampledPoint)
    (rse : Int × Int × Int) (geom : String) (files : List ClusterGraph) :
    bee_blobs cm s t0 f rse geom files =
      beeDictWith rse geom
        (beeArr s t0 f files (fun p => p.x / cm))
        (beeArr s t0 f files (fun p => p.y / cm))
        (beeArr s t0 f files (fun p => p.z / cm))
        (beeArr s t0 f files (fun p => p.q)) := by
  have hinit : beeInit rse geom = beeDictWith rse geom [] [] [] [] := rfl
  rw [bee_blobs, hinit, bee_fold]
  simp

theorem mem_beeArr {s t0 : ℚ} {f : Blob → List SampledPoint}
    {files : List ClusterGraph} {proj : SampledPoint → ℚ} {e : ℚ}
    (he : e ∈ beeArr s t0 f files proj) :
    ∃ g ∈ files, ∃ p ∈ blobpoints (undrift g s t0) f,
      e = round3 (proj p) := by
  rcases List.mem_flatMap.mp he with ⟨g, hg, hmem⟩
  by_cases h0 : (undrift g s t0).nodes.length = 0
  · rw [if_pos h0] at hmem
    simp at hmem
  · rw [if_neg h0] at hmem
    simp only [fclean, List.mem_map] at hmem
    rcases hmem with ⟨a, ⟨p, hp, hpa⟩, hae⟩
    exact ⟨g, hg, p, hp, by rw [← hae, ← hpa]⟩

/-- Claim C7: the bee-blobs conversion produces a JSON object with
exactly the fields `runNo, subRunNo, eventNo, geom, type, x, y, z, q`;
the coordinate arrays are the sampled coordinates divided by `units.cm`
and every element of `x`, `y`, `z` and `q` is rounded to 3 decimals. -/
theorem C7_bee_format (cm s t0 : ℚ) (f : Blob → List SampledPoint)
    (rse : Int × Int × Int) (geom : String) (files : List ClusterGraph) :
    (bee_blobs cm s t0 f rse geom files).map Prod.fst =
      ["runNo", "subRunNo", "eventNo", "geom", "type", "x", "y", "z", "q"] ∧
    (∀ e ∈ getArr (bee_blobs cm s t0 f rse geom files) "x",
        ∃ g ∈ files, ∃ p ∈ blobpoints (undrift g s t0) f,
          e = round3 (p.x / cm)) ∧
    (∀ e ∈ getArr (bee_blobs cm s t0 f rse geom files) "y",
        ∃ g ∈ files, ∃ p ∈ blobpoints (undrift g s t0) f,
          e = round3 (p.y / cm)) ∧
    (∀ e ∈ getArr (bee_blobs cm s t0 f rse geom files) "z",
        ∃ g ∈ files, ∃ p ∈ blobpoints (undrift g s t0) f,
          e = round3 (p.z / cm)) ∧
    (∀ e ∈ getArr (bee_blobs cm s t0 f rse geom files) "q",
        ∃ g ∈ files, ∃ p ∈ blobpoints (undrift g s t0) f,
          e = round3 p.q) := by
  rw [bee_blobs_eq]
  refine ⟨rfl, ?_, ?_, ?_, ?_⟩
  · intro e he
    exact mem_beeArr (he : e ∈ beeArr s t0 f files (fun p => p.x / cm))
  · intro e he
    exact mem_beeArr (he : e ∈ beeArr s t0 f files (fun p => p.y / cm))
  · intro e he
    exact mem_beeArr (he : e ∈ beeArr s t0 f files (fun p => p.z / cm))
  · intro e he
    exact mem_beeArr (he : e ∈ beeArr s t0 f files (fun p => p.q))

/-- Witness for claim C7: the single sampled point of `files1` shows up
in the `x` array as its centimeter value rounded to 3 decimals. -/
theorem C7_bee_format_witness :
    ∃ g ∈ files1, ∃ p ∈ blobpoints (undrift g 1 0) blob_center,
      round3 ((1 : ℚ) / 10) = round3 (p.x / 10) := by
  have hmem : round3 ((1 : ℚ) / 10) ∈
      getArr (bee_blobs 10 1 0 blob_center (0, 0, 0) "pd" files1) "x" := by
    rw [bee_blobs_eq]
    show round3 ((1 : ℚ) / 10) ∈ beeArr 1 0 blob_center files1
      (fun p => p.x / 10)
    simp [beeArr, files1, g2, undrift, blobpoints, blob_center, fclean]
  exact (C7_bee_format 10 1 0 blob_center (0, 0, 0) "pd" files1).2.1
    (round3 ((1 : ℚ) / 10)) hmem

theorem pyRound_intCast (n : ℤ) : pyRound ((n : ℚ)) = n := by
  norm_num [pyRound, Int.floor_intCast]

/-- Claim C10: whenever `impact_linspace_index` returns normally, the
mirror tuple holds exactly `nbins-1-i` for each primary index `i`, all
returned indices lie in `[0, nbins)` with `nbins = len(ls)-1`, and a
position whose bin index falls outside that range raises `IndexError`
instead. -/
theorem C10_impact_index (ls : List ℚ) (pp : ℚ) :
    (∀ prim mirr, impact_linspace_index ls pp = .ok (prim, mirr) →
        mirr = prim.map (fun i => (ls.length : ℤ) - 1 - 1 - i) ∧
        (∀ i ∈ prim, 0 ≤ i ∧ i < (ls.length : ℤ) - 1) ∧
        (∀ i ∈ mirr, 0 ≤ i ∧ i < (ls.length : ℤ) - 1)) ∧
    (∀ l0 l1, ls.get? 0 = some l0 → ls.get? 1 = some l1 →
        (pyRound ((pp - l0) / (l1 - l0)) < 0 ∨
          (ls.length : ℤ) - 1 ≤ pyRound ((pp - l0) / (l1 - l0))) →
        impact_linspace_index ls pp = .error .indexError) := by
  constructor
  · intro prim mirr h
    cases hg0 : ls[0]? with
    | none => simp [impact_linspace_index, hg0] at h
    | some l0 =>
      cases hg1 : ls[1]? with
      | none => simp [impact_linspace_index, hg0, hg1] at h
      | some l1 =>
        simp only [impact_linspace_index, List.get?_eq_getElem?, hg0, hg1]
          at h
        split_ifs at h with h1 h2 h3 h4
        · simp only [Except.ok.injEq, Prod.mk.injEq] at h
          obtain ⟨hp, hm⟩ := h
          subst hp
          subst hm
          refine ⟨by simp, ?_, ?_⟩
          · intro i hi
            simp only [List.mem_singleton] at hi
            subst hi
            omega
          · intro i hi
            simp only [List.mem_singleton] at hi
            subst hi
            omega
        · simp only [Except.ok.injEq, Prod.mk.injEq] at h
          obtain ⟨hp, hm⟩ := h
          subst hp
          subst hm
          refine ⟨by simp, ?_, ?_⟩
          · intro i hi
            simp only [List.mem_singleton] at hi
            subst hi
            omega
          · intro i hi
            simp only [List.mem_singleton] at hi
            subst hi
            omega
        · simp only [Except.ok.injEq, Prod.mk.injEq] at h
          obtain ⟨hp, hm⟩ := h
          subst hp
          subst hm
          refine ⟨?_, ?_, ?_⟩
          · simp only [List.map_cons, List.map_nil, List.cons.injEq,
              and_true]
          · intro i hi
            simp only [List.mem_cons, List.not_mem_nil, or_false] at hi
            rcases hi with rfl | rfl
            · omega
            · omega
          · intro i hi
            simp only [List.mem_cons, List.not_mem_nil, or_false] at hi
            rcases hi with rfl | rfl
            · omega
            · omega
  · intro l0 l1 hg0 hg1 hcond
    rw [List.get?_eq_getElem?] at hg0 hg1
    simp only [impact_linspace_index, List.get?_eq_getElem?, hg0, hg1]
    rw [if_pos hcond]

/-- Witness for claim C10 on the two-bin linspace `[0, 1, 2]`: position
0 maps to bin 0 with mirror bin 1; position 5 maps outside the range
and raises `IndexError`. -/
theorem C10_impact_index_witness :
    ([1] : List ℤ) = ([0] : List ℤ).map
      (fun i => (ls0.length : ℤ) - 1 - 1 - i) ∧
    impact_linspace_index ls0 5 = .error .indexError := by
  have hg0 : ls0.get? 0 = some 0 := rfl
  have hg1 : ls0.get? 1 = some 1 := rfl
  have hr0 : pyRound (((0 : ℚ) - 0) / (1 - 0)) = 0 := by
    have hd : ((0 : ℚ) - 0) / (1 - 0) = ((0 : ℤ) : ℚ) := by norm_num
    rw [hd, pyRound_intCast]
  have hok : impact_linspace_index ls0 0 = .ok ([0], [1]) := by
    rw [List.get?_eq_getElem?] at hg0 hg1
    simp only [impact_linspace_index, List.get?_eq_getElem?, hg0, hg1, hr0]
    norm_num [ls0]
  have hr5 : pyRound (((5 : ℚ) - 0) / (1 - 0)) = 5 := by
    have hd : ((5 : ℚ) - 0) / (1 - 0) = ((5 : ℤ) : ℚ) := by norm_num
    rw [hd, pyRound_intCast]
  refine ⟨((C10_impact_index ls0 0).1 [0] [1] hok).1, ?_⟩
  exact (C10_impact_index ls0 5).2 0 1 rfl rfl
    (Or.inr (by rw [hr5]; norm_num [ls0]))
